import Mathlib

/-!
Verification development for the moviebotV12 control-plane core.

The Python modules under `core/` are shallowly embedded:

* `core/utils/filelock.py` — the scoped file-lock primitive.  Lock
  acquisition, document reads, document writes and error logging are
  recorded as explicit events (`Ev`) so that locking structure is visible
  in every operation's trace.
* `core/queue.py` — the persisted Queue Store (`playlist.json`) and the
  Now-Playing document (`now_playing.txt`).
* `core/player.py` — the `MoviePlayer` playback engine (`get_next_video`,
  `play_video`, `play_loop`), embedded as a small-step transition relation
  on engine states.
* `core/controller.py` — the `ControlManager` poll loop with per-kind
  request-id deduplication and the command handlers.
* `core/main.py` — the supervisor's `monitor` loop restart policy.

Persisted documents are modelled as algebraic values: a JSON document on
disk is either absent, parses to a list of entries, or is malformed
(`json.load` raises).  Python `int` is modelled as `Int`, `dict.get` of a
possibly-missing key as `Option`.  Only error logging (`log.error` /
`log.critical` on the corruption and fault paths) is recorded in traces;
informational logging is not modelled.
-/

namespace Moviebot

/-- Observable events of a store operation: lock acquisition/release of the
scoped `fcntl` lock (`locked_file` in `core/utils/filelock.py`, the
`FileLock` context manager used by `core/player.py`), a read of the whole
document, a write of the whole document, the truncation of the document
performed by `open(path, mode="w")` itself, and an error log.  The
truncation is a document mutation in its own right: `locked_file` opens
the file at filelock.py line 45 and only then starts acquiring the
advisory `flock` at line 48, so in write mode the document is emptied
before the lock is held. -/
inductive Ev where
  | acq : Ev
  | rel : Ev
  | readDoc : Ev
  | writeDoc : Ev
  | truncateDoc : Ev
  | logErr : Ev
deriving DecidableEq, Repr

/-- A queue entry as generated by `_generate_entry` in `core/queue.py`.
`core/queue.py` writes the key `"filepath"`; `core/player.py` reads the key
`"file_path"` via `video.get("file_path")`, which yields `None` when the
key is absent — hence the two distinct fields, the player's one optional. -/
structure Entry where
  id : String
  title : String
  filepath : String
  file_path : Option String
  duration : Int
  type : String
  added_by : String
  timestamp : Int
deriving DecidableEq, Repr

/-- State of the persisted playlist document (`playlist.json`): the file may
be absent, parse as a list of entries, or be malformed so that `json.load`
raises `JSONDecodeError`. -/
inductive PDoc where
  | absent : PDoc
  | ok : List Entry → PDoc
  | malformed : PDoc
deriving DecidableEq, Repr

/-- Modelled from the spec: `read_locked_json`, imported by `core/queue.py`,
`core/controller.py` and `core/discordbot.py` from `core.utils.filelock`
but absent from that file.  Per spec §4.1/§4.2 it performs one lock-guarded
read of the document and parses it, raising on a malformed document
(`DataCorruption`) and on a missing file; the scoped lock is released on
every exit path. -/
def readLockedJson (d : PDoc) : Except Unit (List Entry) × List Ev :=
  match d with
  | .absent => (.error (), [.acq, .rel])
  | .ok l => (.ok l, [.acq, .readDoc, .rel])
  | .malformed => (.error (), [.acq, .readDoc, .rel])

/-- Embeds `write_locked_json` (`core/utils/filelock.py`): it enters
`locked_file(filepath, mode="w")`, whose `open(path, "w")` at
filelock.py line 45 truncates the document *before* the `fcntl.flock`
loop at line 48 acquires the lock; the JSON dump of the full document
then happens inside the hold.  Hence the trace: truncation outside the
hold, then acquire, write, release. -/
def writeLockedJson (l : List Entry) : PDoc × List Ev :=
  (.ok l, [.truncateDoc, .acq, .writeDoc, .rel])

/-- Embeds `load_playlist` (`core/queue.py`): missing file → `[]` with no lock
taken; otherwise `read_locked_json`, any exception caught, logged
(`log.error`) and turned into `[]`. -/
def load_playlist (d : PDoc) : List Entry × List Ev :=
  match d with
  | .absent => ([], [])
  | _ =>
    match readLockedJson d with
    | (.ok l, tr) => (l, tr)
    | (.error _, tr) => ([], tr ++ [.logErr])

/-- Embeds `save_playlist` (`core/queue.py`): one lock-guarded write of the full
document (write failures are not modelled). -/
def save_playlist (l : List Entry) : PDoc × List Ev :=
  writeLockedJson l

/-- Result of a Queue Store operation: returned value, resulting persisted
document, and the trace of lock/read/write/log events it performed. -/
structure QRes (α : Type) where
  ret : α
  doc : PDoc
  tr : List Ev
deriving DecidableEq, Repr

/-- Embeds `add_to_queue` (`core/queue.py`), with the freshly generated entry
(uuid/clock effects of `_generate_entry`) passed as a parameter:
load, append in memory, save. -/
def add_to_queue (e : Entry) (d : PDoc) : QRes Entry :=
  let (queue, t1) := load_playlist d
  let (d2, t2) := save_playlist (queue ++ [e])
  ⟨e, d2, t1 ++ t2⟩

/-- Embeds `get_queue` (`core/queue.py`). -/
def get_queue (d : PDoc) : List Entry :=
  (load_playlist d).1

/-- Embeds `pin_next` (`core/queue.py`): move the matching entry to index 0 and
save; if no entry matches, no write and `false`. -/
def pin_next (entry_id : String) (d : PDoc) : QRes Bool :=
  let (queue, t1) := load_playlist d
  match queue.find? (fun e => e.id = entry_id) with
  | some pinned =>
    let reordered := pinned :: queue.eraseP (fun e => e.id = entry_id)
    let (d2, t2) := save_playlist reordered
    ⟨true, d2, t1 ++ t2⟩
  | none => ⟨false, d, t1⟩

/-- Embeds `remove_by_id` (`core/queue.py`): filter out the id; save and return
`true` only if the list got shorter. -/
def remove_by_id (entry_id : String) (d : PDoc) : QRes Bool :=
  let (queue, t1) := load_playlist d
  let new_queue := queue.filter (fun q => q.id ≠ entry_id)
  if new_queue.length < queue.length then
    let (d2, t2) := save_playlist new_queue
    ⟨true, d2, t1 ++ t2⟩
  else
    ⟨false, d, t1⟩

/-- Embeds `get_next_item` (`core/queue.py`): `queue[0] if queue else None` —
a pure read, no mutation. -/
def get_next_item (d : PDoc) : Option Entry :=
  (load_playlist d).1.head?

/-- Embeds `remove_current` (`core/queue.py`): pop index 0 and save; on an empty
load, return `None` without writing. -/
def remove_current (d : PDoc) : QRes (Option Entry) :=
  let (queue, t1) := load_playlist d
  match queue with
  | [] => ⟨none, d, t1⟩
  | removed :: rest =>
    let (d2, t2) := save_playlist rest
    ⟨some removed, d2, t1 ++ t2⟩

/-- Embeds `is_empty` (`core/queue.py`). -/
def is_empty (d : PDoc) : Bool :=
  (load_playlist d).1.length = 0

/-- Embeds `get_total_duration` (`core/queue.py`). -/
def get_total_duration (d : PDoc) : Int :=
  ((load_playlist d).1.map (fun e => e.duration)).sum

/-- Embeds `get_by_id` (`core/queue.py`). -/
def get_by_id (entry_id : String) (d : PDoc) : Option Entry :=
  (load_playlist d).1.find? (fun e => e.id = entry_id)

/-- Helper for `update_entry`: the Python `for … break` loop patches only
the first entry whose id matches. -/
def patchFirst (entry_id : String) (patch : Entry → Entry) :
    List Entry → List Entry
  | [] => []
  | e :: rest =>
    if e.id = entry_id then patch e :: rest
    else e :: patchFirst entry_id patch rest

/-- Embeds `update_entry` (`core/queue.py`), with the patched entry computed by a
caller-supplied patch function (`entry.update(new_data)`): patch the first
matching entry in place and save; if no id matches, no write and `false`. -/
def update_entry (entry_id : String) (patch : Entry → Entry) (d : PDoc) :
    QRes Bool :=
  let (queue, t1) := load_playlist d
  if queue.any (fun e => e.id = entry_id) then
    let (d2, t2) := save_playlist (patchFirst entry_id patch queue)
    ⟨true, d2, t1 ++ t2⟩
  else
    ⟨false, d, t1⟩

/-! ## Now-Playing document (`now_playing.txt`) -/

/-- State of the persisted now-playing document.  `set_now_playing`
(`core/queue.py`) writes a JSON object `{id, filepath, timestamp}`;
`MoviePlayer.update_now_playing` (`core/player.py`) writes the plain legacy
shape `"<path>|<unix-seconds>"`; `MoviePlayer.clear_now_playing` writes the
empty string.  Neither the legacy shape (the bare `<path>|<seconds>` text
is not a JSON value) nor the empty string parses under `json.load`. -/
inductive NDoc where
  | absent : NDoc
  | jsonShape (id : Option String) (filepath : Option String)
      (timestamp : Option Int) : NDoc
  | legacy (path : String) (timestamp : Int) : NDoc
  | blank : NDoc
  | garbage : NDoc
deriving DecidableEq, Repr

/-- Embeds `set_now_playing` (`core/queue.py`), with the wall clock passed as `t`:
writes `{id, filepath, timestamp}` as JSON. -/
def set_now_playing (e : Entry) (t : Int) : NDoc :=
  .jsonShape (some e.id) (some e.filepath) (some t)

/-- Computes `Path(name).stem` for the name part of a path, as CPython computes it:
the final path component without its last suffix, where a suffix requires
the last dot to sit strictly inside the name (not at position 0 and not
last). -/
def pathStem (s : String) : String :=
  let name := (((s.splitOn "/").filter (fun c => c ≠ "")).getLastD "")
  let cs := name.toList
  match ((List.range cs.length).filter
      (fun i => cs.get? i = some '.')).getLast? with
  | some i =>
    if 0 < i ∧ i < cs.length - 1 then String.mk (cs.take i) else name
  | none => name

/-- The record returned by `get_now_playing`: either a full queue entry
(joined by filepath) or the degraded dict built from the raw reference. -/
inductive NPView where
  | full (e : Entry) : NPView
  | degraded (title : String) (filepath : Option String) (duration : Int)
      (type : String) (added_by : String) (timestamp : Int) : NPView
deriving DecidableEq, Repr

/-- Embeds `get_now_playing` (`core/queue.py`): absent file → `None`; `json.load`
of the document — the legacy `"<path>|<unix-seconds>"` text, the empty file
and any other non-JSON content raise `JSONDecodeError`, which the
`except` clause turns into a logged `None`.  On a parsed JSON object the
queue is joined by filepath, else a degraded record is built. -/
def get_now_playing (nd : NDoc) (pd : PDoc) : Option NPView :=
  match nd with
  | .absent => none
  | .jsonShape _ fp ts =>
    let queue := (load_playlist pd).1
    match queue.find? (fun e => some e.filepath = fp) with
    | some entry => some (.full entry)
    | none =>
      some (.degraded (pathStem (fp.getD "")) fp 0 "unknown" "unknown"
        (ts.getD 0))
  | .legacy _ _ => none
  | .blank => none
  | .garbage => none

/-! ## Playback engine (`core/player.py`, class `MoviePlayer`) -/

/-- Embeds `MoviePlayer.get_next_video`: under one `FileLock` hold, return
`(None, None)` on a missing file, pop the head of the in-memory list on a
parsed document — without writing the document back — and log and return
`(None, [])` on `JSONDecodeError`. -/
def get_next_video (d : PDoc) : (Option Entry × Option (List Entry)) × List Ev :=
  match d with
  | .absent => ((none, none), [.acq, .rel])
  | .ok [] => ((none, some []), [.acq, .readDoc, .rel])
  | .ok (v :: rest) => ((some v, some rest), [.acq, .readDoc, .rel])
  | .malformed => ((none, some []), [.acq, .readDoc, .logErr, .rel])

/-- Embeds `MoviePlayer.write_updated_playlist`: one lock-guarded write of the
full updated list.  Unlike `write_locked_json`, here the truncating
`open(..., "w")` sits *inside* the `with FileLock(...)` block
(player.py lines 47-49), so the whole document mutation happens within
the hold. -/
def write_updated_playlist (l : List Entry) : PDoc × List Ev :=
  (.ok l, [.acq, .writeDoc, .rel])

/-- Embeds `MoviePlayer.update_now_playing`, with the wall clock passed as `t`:
writes the plain legacy `"<path>|<unix-seconds>"` text under the lock. -/
def update_now_playing (fp : String) (t : Int) : NDoc × List Ev :=
  (.legacy fp t, [.acq, .writeDoc, .rel])

/-- Embeds `MoviePlayer.clear_now_playing`: writes the empty string under the
lock. -/
def clear_now_playing : NDoc × List Ev :=
  (.blank, [.acq, .writeDoc, .rel])

/-- Engine phase: `play_loop` is between iterations (`idle`), or
`play_video` is streaming `video` with the in-memory updated playlist
(`updated`, the popped remainder) pending write-back. -/
inductive Phase where
  | idle : Phase
  | streaming (video : Entry) (updated : List Entry) : Phase
deriving DecidableEq, Repr

/-- Engine state: the persisted playlist document, the persisted
now-playing document, the engine phase, and the set of media paths present
on disk (constant across steps). -/
structure EngSt where
  playlist : PDoc
  nowDoc : NDoc
  phase : Phase
  files : List String
deriving DecidableEq, Repr

/-- Small-step transition relation of `MoviePlayer.play_loop` /
`play_video`:

* `beginMissing` — `get_next_video` pops an entry whose `file_path` is
  absent or not on disk: `play_video` writes the updated playlist back and
  returns without streaming (entry dropped).
* `beginStream` — `get_next_video` pops a playable entry: `play_video`
  writes the legacy now-playing text and launches the emitter.  The
  playlist document is *not* written at this point.
* `endStream` — the streaming loop ends (duration elapsed, skip observed,
  or early emitter exit): the emitter is terminated, now-playing cleared,
  and the updated playlist written back. -/
inductive EngStep : EngSt → EngSt → Prop where
  | beginMissing (s : EngSt) (v : Entry) (rest : List Entry) :
      s.phase = .idle →
      (get_next_video s.playlist).1 = (some v, some rest) →
      (∀ fp, v.file_path = some fp → fp ∉ s.files) →
      EngStep s { s with playlist := (write_updated_playlist rest).1 }
  | beginStream (s : EngSt) (v : Entry) (rest : List Entry) (fp : String)
      (t : Int) :
      s.phase = .idle →
      (get_next_video s.playlist).1 = (some v, some rest) →
      v.file_path = some fp →
      fp ∈ s.files →
      EngStep s { s with nowDoc := (update_now_playing fp t).1,
                         phase := .streaming v rest }
  | endStream (s : EngSt) (v : Entry) (rest : List Entry) :
      s.phase = .streaming v rest →
      EngStep s { s with playlist := (write_updated_playlist rest).1,
                         nowDoc := clear_now_playing.1,
                         phase := .idle }

/-- Reachability of engine states. -/
def EngReach : EngSt → EngSt → Prop :=
  Relation.ReflTransGen EngStep

/-! ## Control loop (`core/controller.py`, class `ControlManager`) -/

/-- Embeds `VALID_COMMANDS` (`core/controller.py`). -/
def VALID_COMMANDS : List String := ["pause", "resume", "skip", "stop", "reload"]

/-- A per-kind payload of `control.json`: `payload.get("id")` may be
missing, `payload.get("user", "Unknown")` defaults. -/
structure Payload where
  id : Option String
  user : String
deriving DecidableEq, Repr

/-- Embeds `self.last_request_ids.get(command)`: first-match lookup in the
insertion-ordered dict, modelled as an association list. -/
def lastIdGet (st : List (String × String)) (k : String) : Option String :=
  (st.find? (fun p => p.1 = k)).map (fun p => p.2)

/-- Embeds `self.last_request_ids[command] = request_id`: in-place update of an
existing key, else append. -/
def lastIdSet : List (String × String) → String → String →
    List (String × String)
  | [], k, v => [(k, v)]
  | p :: rest, k, v =>
    if p.1 = k then (k, v) :: rest else p :: lastIdSet rest k v

/-- One iteration of the `for command, payload in command_data.items()`
body of `_check_for_new_command`: invalid kinds and missing/empty request
ids are skipped; `_is_duplicate` compares the payload id with the recorded
one; otherwise the id is recorded and the handler applied.  Returns the
updated `last_request_ids` and the `(kind, user)` applications performed. -/
def processItem (st : List (String × String)) (k : String) (p : Payload) :
    List (String × String) × List (String × String) :=
  if k ∈ VALID_COMMANDS then
    match p.id with
    | none => (st, [])
    | some rid =>
      if rid = "" then (st, [])
      else if lastIdGet st k = some rid then (st, [])
      else (lastIdSet st k rid, [(k, p.user)])
  else (st, [])

/-- The item fold of `_check_for_new_command` over the parsed document. -/
def processItems (st : List (String × String)) :
    List (String × Payload) → List (String × String) × List (String × String)
  | [] => (st, [])
  | (k, p) :: rest =>
    let (st1, ev1) := processItem st k p
    let (st2, ev2) := processItems st1 rest
    (st2, ev1 ++ ev2)

/-- Embeds `_check_for_new_command`: an absent `control.json` or a non-dict
document produces no effect; otherwise the items are folded. -/
def check_for_new_command (st : List (String × String))
    (doc : Option (List (String × Payload))) :
    List (String × String) × List (String × String) :=
  match doc with
  | none => (st, [])
  | some items => processItems st items

/-- Runs `n` successive polls of `_watch_loop` observing the same control
document; applications are concatenated in order. -/
def pollRepeat (st : List (String × String))
    (doc : Option (List (String × Payload))) :
    Nat → List (String × String) × List (String × String)
  | 0 => (st, [])
  | n + 1 =>
    let (st1, e1) := check_for_new_command st doc
    let (st2, e2) := pollRepeat st1 doc n
    (st2, e1 ++ e2)

/-- Observable outcome of `ControlManager._handle_skip`. -/
structure SkipRes where
  paused : Bool
  stopped : Bool
  began : Option Entry
  queueDoc : PDoc
  nowDoc : Option NDoc
deriving DecidableEq, Repr

/-- Embeds `_handle_skip` (`core/controller.py`), with the wall clock passed as
`t`: clear `self.paused`, call `self.player.stop_stream()`, then
`get_next_item()`; when an entry is present, `set_now_playing` it and
`self.player.run_once()` — `get_next_item` only peeks, so the playlist
document is untouched. -/
def handle_skip (_paused : Bool) (qd : PDoc) (t : Int) : SkipRes :=
  match get_next_item qd with
  | some next_video =>
    { paused := false, stopped := true, began := some next_video,
      queueDoc := qd, nowDoc := some (set_now_playing next_video t) }
  | none =>
    { paused := false, stopped := true, began := none,
      queueDoc := qd, nowDoc := none }

/-! ## Supervisor monitor (`core/main.py`) -/

/-- Embeds `MAX_RESTART_ATTEMPTS` (`core/main.py`). -/
def MAX_RESTART_ATTEMPTS : Nat := 5

/-- Embeds `RESTART_BACKOFF` seconds (`core/main.py`). -/
def RESTART_BACKOFF : Nat := 5

/-- Observable micro-events of one dead-worker branch of `monitor`:
the `time.sleep(RESTART_BACKOFF)` wait, the `restart_counters[name] += 1`
increment, the `start_thread` restart, and the `log_critical` persistent
fault. -/
inductive MEvent where
  | waitBackoff (secs : Nat) : MEvent
  | incCounter : MEvent
  | restartWorker : MEvent
  | persistentFault : MEvent
deriving DecidableEq, Repr

/-- The dead-worker branch of `monitor` (`core/main.py`) for one worker
name: with `attempts ≥ MAX_RESTART_ATTEMPTS` log the persistent fault and
skip the restart; otherwise wait the backoff, increment the counter, and
restart. -/
def monitor_dead_cycle (attempts : Nat) : List MEvent × Nat :=
  if MAX_RESTART_ATTEMPTS ≤ attempts then
    ([.persistentFault], attempts)
  else
    ([.waitBackoff RESTART_BACKOFF, .incCounter, .restartWorker],
      attempts + 1)

/-- Runs `n` monitor cycles in which the worker is observed dead each time,
starting from restart counter `c`: final counter and concatenated events. -/
def monitor_run : Nat → Nat → Nat × List MEvent
  | c, 0 => (c, [])
  | c, n + 1 =>
    let (evs, c') := monitor_dead_cycle c
    let (cf, rest) := monitor_run c' n
    (cf, evs ++ rest)

/-! ## Concrete sample data for witnesses and counterexamples -/

/-- A sample queue entry whose media file is present on disk. -/
def entryA : Entry :=
  { id := "a", title := "A", filepath := "movies/a.mp4",
    file_path := some "movies/a.mp4", duration := 2, type := "upload",
    added_by := "alice", timestamp := 100 }

/-- A second sample queue entry. -/
def entryB : Entry :=
  { id := "b", title := "B", filepath := "movies/b.mp4",
    file_path := some "movies/b.mp4", duration := 2, type := "upload",
    added_by := "bob", timestamp := 101 }

/-! ## Queue Store FIFO runs (for the append/pop_front discipline) -/

/-- An operation of the append/pop_front fragment of the Queue Store
interface: `add_to_queue` with a fresh entry, or `remove_current`. -/
inductive QOp where
  | append (e : Entry) : QOp
  | popFront : QOp

/-- Run a sequence of append/pop_front operations against the persisted
document, collecting the entries `remove_current` returned, in order. -/
def runOps : PDoc → List QOp → PDoc × List Entry
  | d, [] => (d, [])
  | d, .append e :: ops => runOps (add_to_queue e d).doc ops
  | d, .popFront :: ops =>
    let r := remove_current d
    let (df, outs) := runOps r.doc ops
    (df, r.ret.toList ++ outs)

/-- The entries appended by a sequence of operations, in order. -/
def appendsOf : List QOp → List Entry
  | [] => []
  | .append e :: ops => e :: appendsOf ops
  | .popFront :: ops => appendsOf ops

/-- The entries a reader of the persisted document sees. -/
def docEntries (d : PDoc) : List Entry :=
  (load_playlist d).1

/-! ## Helper lemmas -/

/-- Loading the playlist never writes the document. -/
theorem load_playlist_no_write (d : PDoc) :
    Ev.writeDoc ∉ (load_playlist d).2 := by
  cases d with
  | absent => decide
  | ok l =>
    exact (by decide : Ev.writeDoc ∉ ([.acq, .readDoc, .rel] : List Ev))
  | malformed => decide

/-- Shows `add_to_queue` on a parsed document appends the entry. -/
theorem add_to_queue_ok (e : Entry) (l : List Entry) :
    (add_to_queue e (.ok l)).doc = .ok (l ++ [e]) := rfl

/-- Shows `remove_current` on a parsed non-empty document pops the head. -/
theorem remove_current_ok_cons (x : Entry) (xs : List Entry) :
    remove_current (.ok (x :: xs)) =
      ⟨some x, .ok xs,
        [.acq, .readDoc, .rel, .truncateDoc, .acq, .writeDoc, .rel]⟩ := rfl

/-- Shows `MoviePlayer.get_next_video` reports a popped head and remainder only
when the document parses to exactly that list. -/
theorem get_next_video_some (d : PDoc) (v : Entry) (rest : List Entry)
    (h : (get_next_video d).1 = (some v, some rest)) :
    d = .ok (v :: rest) := by
  cases d with
  | absent => simp [get_next_video] at h
  | ok l =>
    cases l with
    | nil => simp [get_next_video] at h
    | cons x xs =>
      simp only [get_next_video, Prod.mk.injEq, Option.some.injEq] at h
      rw [h.1, h.2]
  | malformed => simp [get_next_video] at h

/-- Claim C6: for any sequence of append and pop_front operations on the
Queue Store with no pin or remove interleaved, pop_front returns entries in
exactly the order in which they were appended, and store order equals play
order: the popped outputs followed by the remaining stored entries are
exactly the initial entries followed by the appended ones. -/
theorem queue_append_popFront_fifo (ops : List QOp) (q0 : List Entry) :
    (runOps (.ok q0) ops).2 ++ docEntries (runOps (.ok q0) ops).1 =
      q0 ++ appendsOf ops := by
  induction ops generalizing q0 with
  | nil => simp [runOps, docEntries, load_playlist, readLockedJson, appendsOf]
  | cons op ops ih =>
    cases op with
    | append e =>
      have h := ih (q0 ++ [e])
      simp only [runOps, add_to_queue_ok, appendsOf]
      rw [h]
      simp
    | popFront =>
      cases q0 with
      | nil =>
        have h := ih []
        simpa [runOps, remove_current, load_playlist, readLockedJson,
          appendsOf] using h
      | cons x xs =>
        have h := ih xs
        simp only [runOps, remove_current_ok_cons, appendsOf]
        simp only [Option.toList_some, List.cons_append, List.nil_append]
        rw [h]

/-- Claim C7: a malformed Queue Store document is treated as an empty store
by every read operation — `load_playlist` yields `[]` and logs the fault,
`get_queue` yields `[]`, `get_next_item` yields no next entry,
`MoviePlayer.get_next_video` yields no next entry and logs the fault,
`is_empty` reports empty, `get_total_duration` yields 0, and `get_by_id`
finds nothing; all of these are total functions of the embedded code, so no
exception propagates to the caller. -/
theorem malformed_doc_reads_as_empty :
    (load_playlist .malformed).1 = []
    ∧ Ev.logErr ∈ (load_playlist .malformed).2
    ∧ get_queue .malformed = []
    ∧ get_next_item .malformed = none
    ∧ (get_next_video .malformed).1 = (none, some [])
    ∧ Ev.logErr ∈ (get_next_video .malformed).2
    ∧ is_empty .malformed = true
    ∧ get_total_duration .malformed = 0
    ∧ (∀ eid : String, get_by_id eid .malformed = none) := by
  refine ⟨rfl, ?_, rfl, rfl, rfl, ?_, rfl, rfl, fun eid => rfl⟩ <;> decide

/-- Claim C8: removing an id that occurs in no entry of the store returns
`false`, performs no write of the document, and leaves the persisted store
exactly as it was. -/
theorem remove_by_id_absent_id_noop (d : PDoc) (eid : String)
    (h : ∀ e ∈ (load_playlist d).1, e.id ≠ eid) :
    (remove_by_id eid d).ret = false
    ∧ (remove_by_id eid d).doc = d
    ∧ Ev.writeDoc ∉ (remove_by_id eid d).tr := by
  have hnw := load_playlist_no_write d
  rcases e : load_playlist d with ⟨q, t⟩
  rw [e] at h hnw
  have hf : q.filter (fun a => a.id ≠ eid) = q := by
    rw [List.filter_eq_self]
    intro a ha
    simpa using h a ha
  unfold remove_by_id
  rw [e]
  simp only [hf, lt_irrefl, if_false]
  exact ⟨trivial, trivial, hnw⟩

/-- Witness for claim C8 at a concrete store and id. -/
theorem remove_by_id_absent_id_noop_witness :
    (∀ e ∈ (load_playlist (.ok [entryA])).1, e.id ≠ "zzz")
    ∧ (remove_by_id "zzz" (.ok [entryA])).ret = false
    ∧ (remove_by_id "zzz" (.ok [entryA])).doc = .ok [entryA]
    ∧ Ev.writeDoc ∉ (remove_by_id "zzz" (.ok [entryA])).tr := by
  refine ⟨by decide, ?_⟩
  exact remove_by_id_absent_id_noop (.ok [entryA]) "zzz" (by decide)

/-- Claim C10: `remove_current` on an empty Queue Store returns `none`,
performs no write of the queue document, and leaves the persisted store
exactly as it was. -/
theorem remove_current_empty_noop (d : PDoc)
    (h : (load_playlist d).1 = []) :
    (remove_current d).ret = none
    ∧ (remove_current d).doc = d
    ∧ Ev.writeDoc ∉ (remove_current d).tr := by
  have hnw := load_playlist_no_write d
  rcases e : load_playlist d with ⟨q, t⟩
  rw [e] at h
  subst h
  rw [e] at hnw
  unfold remove_current
  rw [e]
  exact ⟨rfl, rfl, hnw⟩

/-! ## Lock-hold structure of the Queue Store mutators -/

/-- Auxiliary scan for `wellLocked`: the flag says whether a lock is
currently held; document reads, writes and truncations are legal only
while it is, holds do not nest, and the trace must end with the lock
released. -/
def wellLockedAux : Bool → List Ev → Bool
  | false, [] => true
  | true, [] => false
  | false, .acq :: tr => wellLockedAux true tr
  | false, .rel :: _ => false
  | false, .readDoc :: _ => false
  | false, .writeDoc :: _ => false
  | false, .truncateDoc :: _ => false
  | false, .logErr :: tr => wellLockedAux false tr
  | true, .acq :: _ => false
  | true, .rel :: tr => wellLockedAux false tr
  | true, .readDoc :: tr => wellLockedAux true tr
  | true, .writeDoc :: tr => wellLockedAux true tr
  | true, .truncateDoc :: tr => wellLockedAux true tr
  | true, .logErr :: tr => wellLockedAux true tr

/-- A trace is well-locked when every document mutation or read (including
the truncation done by a write-mode open) happens inside a lock hold and
every acquired lock is released. -/
def wellLocked (tr : List Ev) : Bool :=
  wellLockedAux false tr

/-- The number of distinct lock holds in a trace. -/
def holdCount (tr : List Ev) : Nat :=
  tr.count .acq

/-- Counterexample to claim C4: `add_to_queue` on a parsed document
performs its read in a first lock hold and its write-back in a second,
separate lock hold — two holds, not the single hold the claim states —
and the write-back even truncates the document (the `open(path, "w")` of
`locked_file`, filelock.py line 45) before the second hold is acquired
(the `flock` at line 48), so the mutator's trace is not well-locked:
a document mutation is observable outside any hold. -/
theorem add_to_queue_two_holds_counterexample :
    (add_to_queue entryA (.ok [])).tr =
      [.acq, .readDoc, .rel, .truncateDoc, .acq, .writeDoc, .rel]
    ∧ holdCount (add_to_queue entryA (.ok [])).tr = 2
    ∧ holdCount (add_to_queue entryA (.ok [])).tr ≠ 1
    ∧ wellLocked (add_to_queue entryA (.ok [])).tr = false := by
  refine ⟨rfl, rfl, ?_, ?_⟩ <;> decide

/-- Claim C4 (amended): every Queue Store mutator on a parsed document
performs its read of the full document in one lock hold and — when it
writes at all — its write-back in a second, separate lock hold, and that
write-back truncates the document before the second hold is acquired:
the writing trace is exactly read-hold, truncation outside any hold,
write-hold, which has two lock holds rather than one and is not
well-locked, so the single-hold claim fails and a concurrent reader can
observe the intermediate truncated document; a non-writing call performs
only its well-locked read hold. -/
theorem queue_mutators_two_lock_holds (l : List Entry) (e : Entry)
    (eid : String) (patch : Entry → Entry) :
    ((add_to_queue e (.ok l)).tr =
        [.acq, .readDoc, .rel, .truncateDoc, .acq, .writeDoc, .rel]
      ∧ holdCount (add_to_queue e (.ok l)).tr = 2
      ∧ wellLocked (add_to_queue e (.ok l)).tr = false)
    ∧ (((remove_by_id eid (.ok l)).tr =
          [.acq, .readDoc, .rel, .truncateDoc, .acq, .writeDoc, .rel]
        ∧ wellLocked (remove_by_id eid (.ok l)).tr = false)
      ∨ ((remove_by_id eid (.ok l)).tr = [.acq, .readDoc, .rel]
        ∧ wellLocked (remove_by_id eid (.ok l)).tr = true))
    ∧ (((pin_next eid (.ok l)).tr =
          [.acq, .readDoc, .rel, .truncateDoc, .acq, .writeDoc, .rel]
        ∧ wellLocked (pin_next eid (.ok l)).tr = false)
      ∨ ((pin_next eid (.ok l)).tr = [.acq, .readDoc, .rel]
        ∧ wellLocked (pin_next eid (.ok l)).tr = true))
    ∧ (((remove_current (.ok l)).tr =
          [.acq, .readDoc, .rel, .truncateDoc, .acq, .writeDoc, .rel]
        ∧ wellLocked (remove_current (.ok l)).tr = false)
      ∨ ((remove_current (.ok l)).tr = [.acq, .readDoc, .rel]
        ∧ wellLocked (remove_current (.ok l)).tr = true))
    ∧ (((update_entry eid patch (.ok l)).tr =
          [.acq, .readDoc, .rel, .truncateDoc, .acq, .writeDoc, .rel]
        ∧ wellLocked (update_entry eid patch (.ok l)).tr = false)
      ∨ ((update_entry eid patch (.ok l)).tr = [.acq, .readDoc, .rel]
        ∧ wellLocked (update_entry eid patch (.ok l)).tr = true)) := by
  have hwF : wellLocked
      ([.acq, .readDoc, .rel, .truncateDoc, .acq, .writeDoc, .rel] :
        List Ev) = false := by decide
  have hwT : wellLocked ([.acq, .readDoc, .rel] : List Ev) = true := by
    decide
  refine ⟨⟨rfl, rfl, hwF⟩, ?_, ?_, ?_, ?_⟩
  · unfold remove_by_id
    dsimp only [load_playlist, readLockedJson, save_playlist, writeLockedJson]
    split
    · exact Or.inl ⟨rfl, hwF⟩
    · exact Or.inr ⟨rfl, hwT⟩
  · unfold pin_next
    dsimp only [load_playlist, readLockedJson, save_playlist, writeLockedJson]
    cases l.find? (fun a => a.id = eid) with
    | some pinned => exact Or.inl ⟨rfl, hwF⟩
    | none => exact Or.inr ⟨rfl, hwT⟩
  · cases l with
    | nil => exact Or.inr ⟨rfl, hwT⟩
    | cons x xs => exact Or.inl ⟨rfl, hwF⟩
  · unfold update_entry
    dsimp only [load_playlist, readLockedJson, save_playlist, writeLockedJson]
    split
    · exact Or.inl ⟨rfl, hwF⟩
    · exact Or.inr ⟨rfl, hwT⟩

/-! ## Control-loop deduplication -/

/-- Recording an id for a kind makes it the recorded id of that kind. -/
theorem lastIdGet_lastIdSet (st : List (String × String)) (k v : String) :
    lastIdGet (lastIdSet st k v) k = some v := by
  induction st with
  | nil => simp [lastIdSet, lastIdGet]
  | cons p rest ih =>
    by_cases hp : p.1 = k
    · simp [lastIdSet, lastIdGet, hp]
    · simpa [lastIdSet, lastIdGet, hp] using ih

/-- Once the recorded id of a kind equals the pending one, any number of
further polls of the same single-command document apply nothing and leave
the recorded ids unchanged. -/
theorem pollRepeat_duplicate (st : List (String × String))
    (k rid u : String) (n : Nat) (h : lastIdGet st k = some rid) :
    pollRepeat st (some [(k, ⟨some rid, u⟩)]) n = (st, []) := by
  induction n with
  | zero => rfl
  | succ m ih =>
    have hstep : processItem st k ⟨some rid, u⟩ = (st, []) := by
      unfold processItem
      by_cases hk : k ∈ VALID_COMMANDS
      · simp only [hk, if_true]
        by_cases hr : rid = ""
        · simp [hr]
        · simp [hr, h]
      · simp [hk]
    simp only [pollRepeat, check_for_new_command, processItems, hstep, ih]
    simp

/-- Claim C5: observing the same `(kind, request_id)` pair on `n ≥ 1`
successive polls applies the handler exactly once — the first observation
applies the command and records its id, every later observation with the
recorded id is ignored as a duplicate: across all `n` polls the list of
handler applications is exactly one application of that kind. -/
theorem same_request_id_applied_once (st0 : List (String × String))
    (k rid u : String) (n : Nat) (hk : k ∈ VALID_COMMANDS) (hr : rid ≠ "")
    (hfresh : lastIdGet st0 k ≠ some rid) (hn : 1 ≤ n) :
    (pollRepeat st0 (some [(k, ⟨some rid, u⟩)]) n).2 = [(k, u)] := by
  obtain ⟨m, rfl⟩ : ∃ m, n = m + 1 := ⟨n - 1, by omega⟩
  have hstep : processItem st0 k ⟨some rid, u⟩ =
      (lastIdSet st0 k rid, [(k, u)]) := by
    unfold processItem
    simp only [hk, if_true]
    simp [hr, hfresh]
  have hdup := pollRepeat_duplicate (lastIdSet st0 k rid) k rid u m
    (lastIdGet_lastIdSet st0 k rid)
  simp only [pollRepeat, check_for_new_command, processItems, hstep, hdup]
  simp

/-- Witness for claim C5: a fresh skip command polled three times is
applied exactly once. -/
theorem same_request_id_applied_once_witness :
    ("skip" ∈ VALID_COMMANDS ∧ "r1" ≠ "" ∧
      lastIdGet [] "skip" ≠ some "r1" ∧ 1 ≤ 3)
    ∧ (pollRepeat [] (some [("skip", ⟨some "r1", "alice"⟩)]) 3).2 =
        [("skip", "alice")] := by
  refine ⟨⟨by decide, by decide, by decide, by decide⟩, ?_⟩
  exact same_request_id_applied_once [] "skip" "r1" "alice" 3 (by decide)
    (by decide) (by decide) (by decide)

/-- Witness for claim C10 at the concrete empty store. -/
theorem remove_current_empty_noop_witness :
    (load_playlist (.ok [])).1 = []
    ∧ (remove_current (.ok [])).ret = none
    ∧ (remove_current (.ok [])).doc = .ok []
    ∧ Ev.writeDoc ∉ (remove_current (.ok [])).tr := by
  refine ⟨rfl, ?_⟩
  exact remove_current_empty_noop (.ok []) rfl

/-! ## Skip handler (claim C2) -/

/-- Counterexample to claim C2: with the queue holding `entryA` then
`entryB`, `_handle_skip` begins `entryA` but — because `get_next_item`
only peeks at `queue[0]` — the Queue Store is left unchanged and the begun
entry is still present in (indeed still at the front of) the persisted
store, contradicting the claimed pop. -/
theorem handle_skip_no_pop_counterexample :
    (handle_skip false (.ok [entryA, entryB]) 50).began = some entryA
    ∧ (handle_skip false (.ok [entryA, entryB]) 50).queueDoc =
        .ok [entryA, entryB]
    ∧ entryA ∈
        (load_playlist (handle_skip false (.ok [entryA, entryB]) 50).queueDoc).1 := by
  refine ⟨rfl, rfl, ?_⟩
  simp [handle_skip, get_next_item, load_playlist, readLockedJson]

/-- Claim C2 (amended): the skip handler stops the current emitter
unconditionally, clears the paused flag, and, when the queue is non-empty,
reads (peeks at, without removing) the front entry, records it as
now-playing and begins playing it; the Queue Store document is left
unchanged, so the begun entry is still the front entry of the store after
the handler runs. -/
theorem handle_skip_spec (p : Bool) (qd : PDoc) (t : Int) :
    (handle_skip p qd t).stopped = true
    ∧ (handle_skip p qd t).paused = false
    ∧ (handle_skip p qd t).began = get_next_item qd
    ∧ (handle_skip p qd t).queueDoc = qd
    ∧ (∀ v, get_next_item qd = some v →
        (handle_skip p qd t).nowDoc = some (set_now_playing v t))
    ∧ (get_next_item qd = none → (handle_skip p qd t).nowDoc = none) := by
  cases h : get_next_item qd with
  | none => simp [handle_skip, h]
  | some v => simp [handle_skip, h]

/-- Witness for claim C2 (amended) at a concrete two-entry store: the
begun entry is the peeked front entry, the store is unchanged, and the
now-playing record is written for it. -/
theorem handle_skip_spec_witness :
    (handle_skip false (.ok [entryA, entryB]) 50).queueDoc =
        .ok [entryA, entryB]
    ∧ (handle_skip false (.ok [entryA, entryB]) 50).nowDoc =
        some (set_now_playing entryA 50) := by
  refine ⟨(handle_skip_spec false (.ok [entryA, entryB]) 50).2.2.2.1, ?_⟩
  exact (handle_skip_spec false (.ok [entryA, entryB]) 50).2.2.2.2.1
    entryA rfl

/-! ## Legacy now-playing shape (claim C3) -/

/-- Claim C3 evaluated on the code: `get_now_playing` parses the
now-playing document with `json.load`, and the legacy plain
`"<path>|<unix-seconds>"` text is not a JSON value, so the parse raises and
the `except` clause returns `None` — the read does not normalize the
legacy shape into a record, for the concrete failing input
`"movies/a.mp4|1700000000"` and in fact for every legacy-shaped document,
whatever the queue contains. -/
theorem get_now_playing_legacy_returns_none :
    get_now_playing (.legacy "movies/a.mp4" 1700000000) (.ok [entryA]) = none
    ∧ (∀ (p : String) (t : Int) (pd : PDoc),
        get_now_playing (.legacy p t) pd = none) :=
  ⟨rfl, fun _ _ _ => rfl⟩

/-! ## Playback engine and the persisted store (claim C1) -/

/-- The initial engine state for the counterexample: `entryA` queued, its
media file present, engine idle. -/
def engInit : EngSt :=
  { playlist := .ok [entryA], nowDoc := .blank, phase := .idle,
    files := ["movies/a.mp4"] }

/-- The engine state one `beginStream` step later: streaming `entryA`
while the persisted playlist still contains it. -/
def engStreaming : EngSt :=
  { playlist := .ok [entryA], nowDoc := .legacy "movies/a.mp4" 100,
    phase := .streaming entryA [], files := ["movies/a.mp4"] }

/-- Counterexample to claim C1: from an idle engine with `entryA` queued, a
reachable state has the engine streaming `entryA` while `entryA` is still
present in the persisted Queue Store — `get_next_video` pops only the
in-memory copy and `play_video` writes the updated playlist back only when
the play cycle ends, not when streaming begins. -/
theorem streaming_entry_still_persisted_counterexample :
    EngReach engInit engStreaming
    ∧ engStreaming.phase = .streaming entryA []
    ∧ entryA ∈ (load_playlist engStreaming.playlist).1 := by
  refine ⟨?_, rfl, ?_⟩
  · exact Relation.ReflTransGen.single
      (EngStep.beginStream engInit entryA [] "movies/a.mp4" 100 rfl rfl rfl
        (by simp [engInit]))
  · simp [engStreaming, load_playlist, readLockedJson]

/-- Claim C1 (amended): in every reachable state of the Playback Engine,
while an entry is streaming the persisted Queue Store still contains it —
the store at that moment is exactly the begun entry followed by the popped
remainder, because the engine pops only its in-memory copy at begin and
writes the document back (without the entry) only when the play cycle
completes. -/
theorem streaming_entry_at_front_of_store (init s : EngSt)
    (hinit : init.phase = .idle) (hreach : EngReach init s) :
    ∀ v rest, s.phase = .streaming v rest → s.playlist = .ok (v :: rest) := by
  intro v rest hph
  rcases hreach.cases_tail with heq | ⟨mid, _, hstep⟩
  · subst heq
    rw [hinit] at hph
    exact absurd hph (by simp)
  · cases hstep with
    | beginMissing v' rest' h1 h2 h3 =>
      simp [h1] at hph
    | beginStream v' rest' fp t h1 h2 h3 h4 =>
      simp only [Phase.streaming.injEq] at hph
      obtain ⟨hv, hrest⟩ := hph
      subst hv
      subst hrest
      simpa using get_next_video_some mid.playlist v' rest' h2
    | endStream v' rest' h1 =>
      simp at hph

/-- Witness for claim C1 (amended): at the concrete reachable streaming
state, the persisted store is the streaming entry followed by the (empty)
remainder. -/
theorem streaming_entry_at_front_of_store_witness :
    engInit.phase = .idle ∧ engStreaming.playlist = .ok (entryA :: []) := by
  refine ⟨rfl, ?_⟩
  exact streaming_entry_at_front_of_store engInit engStreaming rfl
    (Relation.ReflTransGen.single
      (EngStep.beginStream engInit entryA [] "movies/a.mp4" 100 rfl rfl rfl
        (by simp [engInit])))
    entryA [] rfl

/-! ## Supervisor restart ceiling (claim C9) -/

/-- The event block of one successful restart cycle: backoff wait, counter
increment, restart — in that order. -/
def restartBlock : List MEvent :=
  [.waitBackoff RESTART_BACKOFF, .incCounter, .restartWorker]

/-- Closed form of `monitor_run` from any counter value below or at the
ceiling: `min` many full restart blocks, then persistent faults. -/
theorem monitor_run_closed_form (n : Nat) :
    ∀ c, c ≤ MAX_RESTART_ATTEMPTS →
      monitor_run c n =
        (min (c + n) MAX_RESTART_ATTEMPTS,
          (List.replicate (min n (MAX_RESTART_ATTEMPTS - c))
            restartBlock).flatten
          ++ List.replicate (n - (MAX_RESTART_ATTEMPTS - c))
              MEvent.persistentFault) := by
  induction n with
  | zero =>
    intro c hc
    simp [monitor_run, Nat.min_eq_left hc]
  | succ m ih =>
    intro c hc
    by_cases hceil : MAX_RESTART_ATTEMPTS ≤ c
    · have hc5 : c = MAX_RESTART_ATTEMPTS := le_antisymm hc hceil
      subst hc5
      have hcyc : monitor_dead_cycle MAX_RESTART_ATTEMPTS =
          ([.persistentFault], MAX_RESTART_ATTEMPTS) := by
        simp [monitor_dead_cycle]
      have hrec := ih MAX_RESTART_ATTEMPTS le_rfl
      simp only [monitor_run, hcyc, hrec]
      rw [Prod.mk.injEq]
      refine ⟨by omega, ?_⟩
      rw [show MAX_RESTART_ATTEMPTS - MAX_RESTART_ATTEMPTS = 0 from by omega]
      simp [List.replicate_succ]
    · have hlt : c < MAX_RESTART_ATTEMPTS := lt_of_not_ge hceil
      have hcyc : monitor_dead_cycle c = (restartBlock, c + 1) := by
        simp [monitor_dead_cycle, restartBlock, not_le.mpr hlt]
      have hrec := ih (c + 1) hlt
      simp only [monitor_run, hcyc, hrec]
      rw [Prod.mk.injEq]
      refine ⟨by omega, ?_⟩
      rw [show min (m + 1) (MAX_RESTART_ATTEMPTS - c) =
            min m (MAX_RESTART_ATTEMPTS - (c + 1)) + 1 from by omega,
          show m + 1 - (MAX_RESTART_ATTEMPTS - c) =
            m - (MAX_RESTART_ATTEMPTS - (c + 1)) from by omega]
      simp [List.replicate_succ]

/-- Counting restarts in a sequence of whole restart blocks. -/
theorem count_restart_in_blocks (k : Nat) :
    ((List.replicate k restartBlock).flatten).count MEvent.restartWorker
      = k := by
  induction k with
  | zero => rfl
  | succ m ih =>
    rw [List.replicate_succ, List.flatten_cons, List.count_append, ih,
      show List.count MEvent.restartWorker restartBlock = 1 from by decide]
    omega

/-- Claim C9: starting from a zero restart counter, across any number `n`
of monitor cycles observing the worker dead, the worker is restarted
exactly `min n MAX_RESTART_ATTEMPTS` times — so at most
`MAX_RESTART_ATTEMPTS` times in total — and each restart is preceded in
its cycle by the fixed backoff wait and the counter increment; every cycle
past the ceiling performs no restart and surfaces a persistent fault
instead, so the trace is `min n MAX_RESTART_ATTEMPTS` restart blocks
followed by `n - MAX_RESTART_ATTEMPTS` persistent faults. -/
theorem monitor_restart_ceiling (n : Nat) :
    (monitor_run 0 n).1 = min n MAX_RESTART_ATTEMPTS
    ∧ (monitor_run 0 n).2 =
        (List.replicate (min n MAX_RESTART_ATTEMPTS) restartBlock).flatten
          ++ List.replicate (n - MAX_RESTART_ATTEMPTS) MEvent.persistentFault
    ∧ (monitor_run 0 n).2.count MEvent.restartWorker =
        min n MAX_RESTART_ATTEMPTS := by
  have h := monitor_run_closed_form n 0 (by decide)
  rw [show (0 : Nat) + n = n from by omega] at h
  rw [show MAX_RESTART_ATTEMPTS - 0 = MAX_RESTART_ATTEMPTS from rfl] at h
  refine ⟨by rw [h], by rw [h], ?_⟩
  rw [h]
  simp only [List.count_append, count_restart_in_blocks]
  rw [List.count_replicate]
  simp

end Moviebot
